import Mathlib

/-!
Verification of the role-tracker backend (scraper.py, scorer.py, db.py,
api.py, scheduler.py) through a shallow embedding.

Strings are modelled as `List Char`.  Python's `json.loads` is modelled by a
recursive-descent parser `jsonParse` over a JSON value type `PyJson`
(numerals are restricted to integers and `\uXXXX` escapes are kept
uninterpreted; every concrete text appearing in the claims falls inside this
fragment).  Database timestamps (`NOW()`, `datetime.utcnow()`) are modelled
as `Nat` values passed explicitly.  SQL `ORDER BY` is modelled as a stable
insertion sort by exactly the listed sort keys; the relative order of rows
that the listed keys do not distinguish is not specified by SQL, and the
stable sort exhibits one legal execution.
-/

/-- JSON values as produced by `json.loads` (integer numerals only). -/
inductive PyJson where
  | null
  | bool (b : Bool)
  | int (n : Int)
  | str (s : List Char)
  | arr (xs : List PyJson)
  | obj (fields : List (List Char × PyJson))

/-- Python `dict.get` on the field list of a parsed JSON object: with
duplicate keys the last occurrence wins, as in `json.loads`. -/
def pyGet (fields : List (List Char × PyJson)) (key : List Char) : Option PyJson :=
  fields.foldl (fun acc kv => if kv.1 = key then some kv.2 else acc) none

/-- `role.get(key, default)` for a parsed JSON value.  The pipeline only
calls this on objects; a non-object would raise `AttributeError` in Python,
which never happens on the inputs the claims range over. -/
def pyDictGet (v : PyJson) (key : List Char) (dflt : PyJson) : PyJson :=
  match v with
  | .obj fs => (pyGet fs key).getD dflt
  | _ => dflt

/-- Python truthiness of a JSON value (`bool(v)`). -/
def pyTruthy (v : PyJson) : Bool :=
  match v with
  | .null => false
  | .bool b => b
  | .int n => n != 0
  | .str s => !s.isEmpty
  | .arr xs => !xs.isEmpty
  | .obj fs => !fs.isEmpty

/-- Python `v == "lit"` for a JSON value and a string literal: true exactly
when `v` is that string (a non-string compares unequal, not an error). -/
def pyEqStr (v : PyJson) (lit : List Char) : Bool :=
  match v with
  | .str s => s = lit
  | _ => false

/-- Whitespace characters skipped by `json.loads` and stripped by
`str.strip` (the JSON whitespace set; the texts in the claims contain no
other Python whitespace). -/
def isPySpace (c : Char) : Bool :=
  c = ' ' || c = '\t' || c = '\n' || c = '\r'

/-- Leading-whitespace removal (`str.lstrip`, and the skipping `json.loads`
does before each token). -/
def pyLstrip (s : List Char) : List Char := s.dropWhile isPySpace

/-- Trailing-whitespace removal (`str.rstrip`). -/
def pyRstrip (s : List Char) : List Char := (s.reverse.dropWhile isPySpace).reverse

/-- Python `str.strip()`. -/
def pyStrip (s : List Char) : List Char := pyRstrip (pyLstrip s)

/-- Python `str.startswith`. -/
def pyStartsWith (s pre : List Char) : Bool := pre.isPrefixOf s

/-- Python `str.split("\n")`. -/
def splitNl : List Char → List (List Char)
  | [] => [[]]
  | c :: r =>
    if c = '\n' then [] :: splitNl r
    else
      match splitNl r with
      | [] => [[c]]
      | h :: t => (c :: h) :: t

/-- Python `"\n".join(lines)`. -/
def joinNl : List (List Char) → List Char
  | [] => []
  | [l] => l
  | l :: ls => l ++ '\n' :: joinNl ls

/-- Python `str.find(ch)` (as an `Option` instead of `-1`). -/
def pyFind (s : List Char) (c : Char) : Option Nat := s.findIdx? (· = c)

/-- Python `str.rfind(ch)` (as an `Option` instead of `-1`). -/
def pyRfind (s : List Char) (c : Char) : Option Nat :=
  match s.reverse.findIdx? (· = c) with
  | some i => some (s.length - 1 - i)
  | none => none

/-- Python slice `s[start:stop]`. -/
def pySlice (s : List Char) (start stop : Nat) : List Char :=
  (s.drop start).take (stop - start)

/-- One escaped character inside a JSON string literal (`\uXXXX` escapes are
not interpreted; none occur in the claims). -/
def escChar (c : Char) : Char :=
  if c = 'n' then '\n'
  else if c = 't' then '\t'
  else if c = 'r' then '\r'
  else if c = 'b' then '\x08'
  else if c = 'f' then '\x0c'
  else c

/-- Body of a JSON string literal after the opening quote: the decoded
characters and the remainder after the closing quote. -/
def parseStringBody : List Char → Option (List Char × List Char)
  | [] => none
  | '"' :: rest => some ([], rest)
  | '\\' :: c :: rest =>
    match parseStringBody rest with
    | some (s, r) => some (escChar c :: s, r)
    | none => none
  | c :: rest =>
    match parseStringBody rest with
    | some (s, r) => some (c :: s, r)
    | none => none

/-- Digits of a nonempty decimal numeral, as a natural number. -/
def digitsToNat (ds : List Char) : Nat :=
  ds.foldl (fun acc c => acc * 10 + (c.toNat - '0'.toNat)) 0

/-- An unsigned JSON numeral (integer part). -/
def parseNatNum (s : List Char) : Option (Int × List Char) :=
  let ds := s.takeWhile Char.isDigit
  let r := s.dropWhile Char.isDigit
  if ds.isEmpty then none else some ((digitsToNat ds : Int), r)

/-- A JSON numeral with optional leading minus sign. -/
def parseNumber : List Char → Option (Int × List Char)
  | '-' :: rest =>
    match parseNatNum rest with
    | some (n, r) => some (-n, r)
    | none => none
  | s => parseNatNum s

/-- One JSON value, fuel-bounded recursive descent, returning the value and
the unconsumed remainder.  Array and object tails are parsed by re-entering
the function on the remainder with the opening bracket restored. -/
def parseVal : Nat → List Char → Option (PyJson × List Char)
  | 0, _ => none
  | fuel + 1, s =>
    match pyLstrip s with
    | 'n' :: 'u' :: 'l' :: 'l' :: r => some (.null, r)
    | 't' :: 'r' :: 'u' :: 'e' :: r => some (.bool true, r)
    | 'f' :: 'a' :: 'l' :: 's' :: 'e' :: r => some (.bool false, r)
    | '"' :: r =>
    (match parseStringBody r with
     | some (cs, r2) => some (.str cs, r2)
     | none => none)
    | '[' :: r =>
    (match pyLstrip r with
     | ']' :: r2 => some (.arr [], r2)
     | _ =>
       match parseVal fuel r with
       | none => none
       | some (v, r2) =>
         match pyLstrip r2 with
         | ']' :: r3 => some (.arr [v], r3)
         | ',' :: r3 =>
           (match parseVal fuel ('[' :: r3) with
            | some (.arr vs, r4) => some (.arr (v :: vs), r4)
            | _ => none)
         | _ => none)
    | '{' :: r =>
    (match pyLstrip r with
     | '}' :: r2 => some (.obj [], r2)
     | '"' :: rk =>
       (match parseStringBody rk with
        | none => none
        | some (k, r2) =>
          match pyLstrip r2 with
          | ':' :: r3 =>
            (match parseVal fuel r3 with
             | none => none
             | some (v, r4) =>
               match pyLstrip r4 with
               | '}' :: r5 => some (.obj [(k, v)], r5)
               | ',' :: r5 =>
                 (match parseVal fuel ('{' :: r5) with
                  | some (.obj fs, r6) => some (.obj ((k, v) :: fs), r6)
                  | _ => none)
               | _ => none)
          | _ => none)
     | _ => none)
    | other => (match parseNumber other with
       | some (n, r) => some (.int n, r)
       | none => none)

/-- `json.loads`: parse one value and require only whitespace after it. -/
def jsonParse (s : List Char) : Option PyJson :=
  match parseVal (s.length + 1) s with
  | some (v, r) => if pyLstrip r = [] then some v else none
  | none => none

/-- One character of a dumped JSON string (`json.dumps` escaping; non-ASCII
escaping is irrelevant to the claims). -/
def escapeJsonChar (c : Char) : List Char :=
  if c = '"' then ['\\', '"']
  else if c = '\\' then ['\\', '\\']
  else if c = '\n' then ['\\', 'n']
  else if c = '\t' then ['\\', 't']
  else if c = '\r' then ['\\', 'r']
  else [c]

mutual

/-- `json.dumps` with its default separators. -/
def jsonDump : PyJson → List Char
  | .null => "null".toList
  | .bool true => "true".toList
  | .bool false => "false".toList
  | .int n => (toString n).toList
  | .str s => '"' :: s.foldr (fun c acc => escapeJsonChar c ++ acc) ['"']
  | .arr xs => '[' :: dumpArrItems xs ++ [']']
  | .obj fs => '{' :: dumpObjItems fs ++ ['}']

/-- Comma-separated dumped array elements. -/
def dumpArrItems : List PyJson → List Char
  | [] => []
  | [x] => jsonDump x
  | x :: xs => jsonDump x ++ ',' :: ' ' :: dumpArrItems xs

/-- Comma-separated dumped object members. -/
def dumpObjItems : List (List Char × PyJson) → List Char
  | [] => []
  | [(k, v)] => jsonDump (.str k) ++ ':' :: ' ' :: jsonDump v
  | (k, v) :: fs => jsonDump (.str k) ++ ':' :: ' ' :: jsonDump v ++ ',' :: ' ' :: dumpObjItems fs

end

/-- Markdown code-fence stripping shared by `scrape_company_roles` and
`score_role`: strip, and if the text starts with three backticks drop its
first and last lines (`"\n".join(lines[1:-1])`). -/
def stripFence (content : List Char) : List Char :=
  let c := pyStrip content
  if pyStartsWith c ['`', '`', '`'] then joinNl (((splitNl c).drop 1).dropLast) else c

/-- `start != -1 and end > start` for the first-`open`/last-`close` slice
fallback (`end` being `rfind(close) + 1`). -/
def sliceFound (c : List Char) (opn cls : Char) : Bool :=
  match pyFind c opn, pyRfind c cls with
  | some st, some en => st ≤ en
  | _, _ => false

/-- `content[content.find(open) : content.rfind(close) + 1]`. -/
def sliceExtract (c : List Char) (opn cls : Char) : List Char :=
  match pyFind c opn, pyRfind c cls with
  | some st, some en => pySlice c st (en + 1)
  | _, _ => []

/-- Response parsing of `scrape_company_roles` (scraper.py): fence-strip,
strict parse (a non-list result is replaced by `[]`), else bracket-slice
fallback whose parse failure is caught and yields `[]`.  A slice from the
first `[` to the last `]` can only parse to an array, so the fallback's
missing `isinstance` check is unobservable. -/
def scrape_company_roles_parse (content : List Char) : List PyJson :=
  let c := stripFence content
  match jsonParse c with
  | some (.arr xs) => xs
  | some _ => []
  | none =>
    if sliceFound c '[' ']' then
      match jsonParse (sliceExtract c '[' ']') with
      | some (.arr xs) => xs
      | some _ => []
      | none => []
    else []

/-- The default score result built by `score_role` when no brace-delimited
substring exists in an unparsable response. -/
def parseFailDefault : PyJson :=
  .obj [("total_score".toList, .int 0),
        ("breakdown".toList, .obj []),
        ("red_flags".toList, .arr [.str "Failed to parse scoring response".toList]),
        ("recommendation".toList, .str "Error".toList),
        ("reasoning".toList, .str "Could not parse Gemini response".toList)]

/-- Response parsing of `score_role` (scorer.py): fence-strip, strict parse,
else brace-slice fallback.  The fallback's `json.loads` is not wrapped in
`try`, so its failure propagates as an exception (`Except.error`); only when
no brace-delimited substring exists is the default error result returned. -/
def score_role_parse (content : List Char) : Except (List Char) PyJson :=
  let c := stripFence content
  match jsonParse c with
  | some v => .ok v
  | none =>
    if sliceFound c '{' '}' then
      match jsonParse (sliceExtract c '{' '}') with
      | some v => .ok v
      | none => .error "JSONDecodeError".toList
    else .ok parseFailDefault

/-- The substitute score result built by `score_roles_batch` when scoring a
role raises. -/
def scoringErrorSub (e : List Char) : PyJson :=
  .obj [("total_score".toList, .int 0),
        ("breakdown".toList, .obj []),
        ("red_flags".toList, .arr [.str ("Scoring error: ".toList ++ e)]),
        ("recommendation".toList, .str "Error".toList),
        ("reasoning".toList, .str ("Error during scoring: ".toList ++ e))]

/-- `score_roles_batch` (scorer.py): score each role, catching a raised
scoring error and substituting the zero-score result, keeping the 1:1
correspondence between roles and results. -/
def score_roles_batch (scoreFn : PyJson → Except (List Char) PyJson)
    (roles : List PyJson) : List (PyJson × PyJson) :=
  roles.map (fun r =>
    match scoreFn r with
    | .ok v => (r, v)
    | .error e => (r, scoringErrorSub e))

/-- A row of the `companies` table (db.py `init_db`; `created_at` is never
read and is omitted). -/
structure Company where
  id : Nat
  name : List Char
  careers_url : List Char
  active : Nat
  last_scraped_at : Option Nat

/-- A row of the `roles` table.  `posted_date` holds the value the pipeline
passed (a JSON string on the inputs the claims range over), `score_breakdown`
the serialized breakdown text. -/
structure Role where
  id : Nat
  company_id : Nat
  title : List Char
  url : List Char
  location : List Char
  description : List Char
  seniority : List Char
  department : List Char
  posted_date : Option PyJson
  score : Int
  score_breakdown : List Char
  status : List Char
  first_seen_at : Nat
  last_seen_at : Nat
  applied_at : Option Nat

/-- A row of the `scrape_logs` table (`log_scrape` always inserts
`started_at DEFAULT NOW()` and `finished_at = NOW()` together). -/
structure ScrapeLog where
  company_id : Nat
  started_at : Nat
  finished_at : Nat
  roles_found : Nat
  roles_qualified : Nat
  status : List Char
  error : Option (List Char)

/-- The database.  `next_role_id` / `next_company_id` model the SERIAL
sequences. -/
structure DB where
  companies : List Company
  roles : List Role
  scrape_logs : List ScrapeLog
  next_role_id : Nat
  next_company_id : Nat

/-- db.py `get_active_companies`: `SELECT * FROM companies WHERE active = 1`. -/
def get_active_companies (db : DB) : List Company :=
  db.companies.filter (fun c => c.active = 1)

/-- db.py `add_company`: `INSERT ... ON CONFLICT (name) DO NOTHING`.  On
conflict the row is not inserted but the SERIAL sequence value is still
consumed by the attempted insert. -/
def add_company (db : DB) (name careers_url : List Char) : DB :=
  if db.companies.any (fun c => c.name = name) then
    { db with next_company_id := db.next_company_id + 1 }
  else
    { db with
        companies := db.companies ++
          [{ id := db.next_company_id, name := name, careers_url := careers_url,
             active := 1, last_scraped_at := none }],
        next_company_id := db.next_company_id + 1 }

/-- db.py `remove_company`: `UPDATE companies SET active = 0 WHERE id = %s`. -/
def remove_company (db : DB) (company_id : Nat) : DB :=
  { db with
      companies := db.companies.map (fun c =>
        if c.id = company_id then { c with active := 0 } else c) }

/-- The serialized breakdown: `json.dumps(b) if isinstance(b, dict) else b`
(the pipeline only ever passes a dict or, conceivably, a string). -/
def breakdownJson (b : PyJson) : List Char :=
  match b with
  | .obj _ => jsonDump b
  | .str s => s
  | v => jsonDump v

/-- The key predicate of the roles UNIQUE constraint:
`company_id = %s AND title = %s AND location = %s`. -/
def roleKeyIs (company_id : Nat) (title location : List Char) (r : Role) : Bool :=
  r.company_id = company_id && r.title = title && r.location = location

/-- db.py `upsert_role`: select by (company_id, title, location); if a row
exists update its descriptive fields, score, breakdown and `last_seen_at`
(leaving `status`, `applied_at`, `first_seen_at` untouched), else insert a
fresh row with `status` defaulting to `'new'` and both seen-timestamps set
to now. -/
def upsert_role (db : DB) (now : Nat) (company_id : Nat)
    (title url location description seniority department : List Char)
    (score : Int) (score_breakdown : PyJson) (posted_date : Option PyJson) : DB :=
  match db.roles.find? (roleKeyIs company_id title location) with
  | some existing =>
    { db with
        roles := db.roles.map (fun r =>
          if r.id = existing.id then
            { r with
                url := url, description := description, seniority := seniority,
                department := department, posted_date := posted_date,
                score := score, score_breakdown := breakdownJson score_breakdown,
                last_seen_at := now }
          else r) }
  | none =>
    { db with
        roles := db.roles ++
          [{ id := db.next_role_id, company_id := company_id, title := title,
             url := url, location := location, description := description,
             seniority := seniority, department := department,
             posted_date := posted_date, score := score,
             score_breakdown := breakdownJson score_breakdown,
             status := "new".toList, first_seen_at := now, last_seen_at := now,
             applied_at := none }],
        next_role_id := db.next_role_id + 1 }

/-- db.py `mark_role_applied`: set `status = 'applied'` and stamp
`applied_at = NOW()`. -/
def mark_role_applied (db : DB) (now : Nat) (role_id : Nat) : DB :=
  { db with
      roles := db.roles.map (fun r =>
        if r.id = role_id then
          { r with status := "applied".toList, applied_at := some now }
        else r) }

/-- db.py `mark_role_dismissed`: set `status = 'dismissed'`. -/
def mark_role_dismissed (db : DB) (role_id : Nat) : DB :=
  { db with
      roles := db.roles.map (fun r =>
        if r.id = role_id then { r with status := "dismissed".toList } else r) }

/-- db.py `update_company_scraped`: stamp `last_scraped_at = NOW()`. -/
def update_company_scraped (db : DB) (now : Nat) (company_id : Nat) : DB :=
  { db with
      companies := db.companies.map (fun c =>
        if c.id = company_id then { c with last_scraped_at := some now } else c) }

/-- db.py `log_scrape`: append one scrape_logs row. -/
def log_scrape (db : DB) (now : Nat) (company_id : Nat)
    (roles_found roles_qualified : Nat) (status : List Char)
    (error : Option (List Char)) : DB :=
  { db with
      scrape_logs := db.scrape_logs ++
        [{ company_id := company_id, started_at := now, finished_at := now,
           roles_found := roles_found, roles_qualified := roles_qualified,
           status := status, error := error }] }

/-- The `JOIN companies c ON r.company_id = c.id` of the role queries: each
role row is emitted once per matching company row (exactly once under
referential integrity and unique company ids). -/
def joinRoles (db : DB) : List Role :=
  db.roles.foldr (fun r acc =>
    (db.companies.filter (fun c => c.id = r.company_id)).map (fun _ => r) ++ acc) []

/-- `ORDER BY r.score DESC, r.last_seen_at DESC` as a relation. -/
def scoreRecencyDesc (a b : Role) : Prop :=
  b.score < a.score ∨ (a.score = b.score ∧ b.last_seen_at ≤ a.last_seen_at)

instance : DecidableRel scoreRecencyDesc := fun a b => by
  unfold scoreRecencyDesc; infer_instance

/-- `ORDER BY r.score DESC` (no secondary key) as a relation. -/
def scoreDesc (a b : Role) : Prop :=
  b.score ≤ a.score

instance : DecidableRel scoreDesc := fun a b => by
  unfold scoreDesc; infer_instance

/-- db.py `get_qualified_roles`: roles joined with companies, kept when
`score >= threshold`, ordered by score then recency, both descending. -/
def get_qualified_roles (db : DB) (threshold : Int) : List Role :=
  ((joinRoles db).filter (fun r => threshold ≤ r.score)).insertionSort scoreRecencyDesc

/-- db.py `get_all_roles`: all roles joined with companies, ordered by score
then recency, both descending. -/
def get_all_roles (db : DB) : List Role :=
  (joinRoles db).insertionSort scoreRecencyDesc

/-- db.py `get_roles_by_company`: the company's roles, ordered by
`score DESC` only. -/
def get_roles_by_company (db : DB) (company_id : Nat) : List Role :=
  ((joinRoles db).filter (fun r => r.company_id = company_id)).insertionSort scoreDesc

/-- config.py `SCORE_THRESHOLD`. -/
def SCORE_THRESHOLD : Int := 80

/-- api.py `list_roles`: `if company_id:` (Python truthiness, so `None` and
`0` both fall through) dispatches to the by-company listing, else
`qualified_only` picks the thresholded or the unfiltered listing. -/
def list_roles (db : DB) (qualified_only : Bool) (company_id : Option Nat) : List Role :=
  match company_id with
  | some cid =>
    if cid ≠ 0 then get_roles_by_company db cid
    else if qualified_only then get_qualified_roles db SCORE_THRESHOLD
    else get_all_roles db
  | none =>
    if qualified_only then get_qualified_roles db SCORE_THRESHOLD
    else get_all_roles db

/-- `role.get(key, "dflt")` where the pipeline uses the value as a string. -/
def pyGetStr (v : PyJson) (key dflt : List Char) : List Char :=
  match pyDictGet v key (.str dflt) with
  | .str s => s
  | _ => dflt

/-- `score_result.get("total_score", 0)` (a non-integer value would be
rejected by the INTEGER column; the claims range over integer scores). -/
def totalScoreOf (res : PyJson) : Int :=
  match pyDictGet res "total_score".toList (.int 0) with
  | .int n => n
  | _ => 0

/-- api.py posted-date normalization:
`posted_date = raw if raw and raw != "Not specified" else None`. -/
def normalize_posted (raw : PyJson) : Option PyJson :=
  if pyTruthy raw && !pyEqStr raw "Not specified".toList then some raw else none

/-- The in-memory `_scrape_status` dict of api.py. -/
structure ScrapeStatus where
  is_running : Bool
  current_company : Option (List Char)
  progress : List Char

/-- The whole process state: database plus the in-memory run-state flag. -/
structure Sys where
  db : DB
  status : ScrapeStatus

/-- The count of `(role, score)` pairs whose `total_score` meets
`SCORE_THRESHOLD`, as accumulated by the per-pair loop. -/
def countQualified (scored : List (PyJson × PyJson)) : Nat :=
  (scored.filter (fun p => SCORE_THRESHOLD ≤ totalScoreOf p.2)).length

/-- The per-pair `db.upsert_role(...)` call of api.py `_run_scrape`,
including its posted-date normalization. -/
def upsert_scored_role (now : Nat) (c : Company) (db : DB) (p : PyJson × PyJson) : DB :=
  upsert_role db now c.id
    (pyGetStr p.1 "title".toList "Unknown".toList)
    (pyGetStr p.1 "url".toList [])
    (pyGetStr p.1 "location".toList [])
    (pyGetStr p.1 "description".toList [])
    (pyGetStr p.1 "seniority".toList [])
    (pyGetStr p.1 "department".toList [])
    (totalScoreOf p.2)
    (pyDictGet p.2 "breakdown".toList (.obj []))
    (normalize_posted (pyDictGet p.1 "posted_date".toList .null))

/-- The body of the per-company loop of api.py `_run_scrape`: update the
progress fields, search (an exception yields an `error` log row and moves
on), else score the batch, upsert every pair, stamp the company and append a
`completed` log row. -/
def process_company (search : Company → Except (List Char) (List PyJson))
    (scoreFn : PyJson → Except (List Char) PyJson) (now : Nat)
    (sys : Sys) (c : Company) : Sys :=
  let st1 : ScrapeStatus :=
    { sys.status with
        current_company := some c.name,
        progress := "Scraping ".toList ++ c.name ++ "...".toList }
  match search c with
  | .error e =>
    { db := log_scrape sys.db now c.id 0 0 "error".toList (some e), status := st1 }
  | .ok roles =>
    let st2 : ScrapeStatus :=
      { st1 with
          progress := "Scoring ".toList ++ (toString roles.length).toList ++
            " roles from ".toList ++ c.name ++ "...".toList }
    let scored := score_roles_batch scoreFn roles
    let db1 := scored.foldl (upsert_scored_role now c) sys.db
    let db2 := update_company_scraped db1 now c.id
    let db3 := log_scrape db2 now c.id roles.length (countQualified scored)
      "completed".toList none
    { db := db3, status := st2 }

/-- Setting `_scrape_status["is_running"] = True` at the top of
`_run_scrape`. -/
def startRun (sys : Sys) : Sys :=
  { sys with status := { sys.status with is_running := true } }

/-- The final `_scrape_status = {"is_running": False, ...}` of
`_run_scrape`. -/
def finishRun (sys : Sys) : Sys :=
  { sys with
      status := { is_running := false, current_company := none,
                  progress := "Done".toList } }

/-- The company selection of `_run_scrape`: all active companies, filtered
by id when `company_ids` is truthy (a non-`None`, nonempty list). -/
def selectCompanies (db : DB) (company_ids : Option (List Nat)) : List Company :=
  match company_ids with
  | some ids =>
    if ids.isEmpty then get_active_companies db
    else (get_active_companies db).filter (fun c => ids.contains c.id)
  | none => get_active_companies db

/-- api.py `_run_scrape`: raise the run flag, process each selected company
in order, and reset the status to idle. -/
def run_scrape (search : Company → Except (List Char) (List PyJson))
    (scoreFn : PyJson → Except (List Char) PyJson) (now : Nat)
    (company_ids : Option (List Nat)) (sys : Sys) : Sys :=
  finishRun ((selectCompanies sys.db company_ids).foldl
    (process_company search scoreFn now) (startRun sys))

/-- api.py `trigger_scrape`: reject with 409 while `is_running` is set, else
accept and hand the background task its `company_ids`
(`[company_id] if company_id else None`).  The handler itself mutates no
state. -/
def trigger_scrape (sys : Sys) (company_id : Option Nat) :
    Except (List Char) (Option (List Nat)) :=
  if sys.status.is_running then .error "Scrape already in progress".toList
  else
    .ok (match company_id with
         | some cid => if cid ≠ 0 then some [cid] else none
         | none => none)

/-- The per-pair `db.upsert_role(...)` call of scheduler.py
`scheduled_scrape`: identical to the api.py one except that `posted_date` is
not passed, so the parameter default `None` is always stored. -/
def upsert_scored_role_sched (now : Nat) (c : Company) (db : DB)
    (p : PyJson × PyJson) : DB :=
  upsert_role db now c.id
    (pyGetStr p.1 "title".toList "Unknown".toList)
    (pyGetStr p.1 "url".toList [])
    (pyGetStr p.1 "location".toList [])
    (pyGetStr p.1 "description".toList [])
    (pyGetStr p.1 "seniority".toList [])
    (pyGetStr p.1 "department".toList [])
    (totalScoreOf p.2)
    (pyDictGet p.2 "breakdown".toList (.obj []))
    none

/-- The body of the per-company loop of scheduler.py `scheduled_scrape`.
scheduler.py never references `_scrape_status`, so the step leaves the
status component of the state untouched. -/
def scheduled_step (search : Company → Except (List Char) (List PyJson))
    (scoreFn : PyJson → Except (List Char) PyJson) (now : Nat)
    (sys : Sys) (c : Company) : Sys :=
  match search c with
  | .error e =>
    { sys with db := log_scrape sys.db now c.id 0 0 "error".toList (some e) }
  | .ok roles =>
    let scored := score_roles_batch scoreFn roles
    let db1 := scored.foldl (upsert_scored_role_sched now c) sys.db
    let db2 := update_company_scraped db1 now c.id
    let db3 := log_scrape db2 now c.id roles.length (countQualified scored)
      "completed".toList none
    { sys with db := db3 }

/-- scheduler.py `scheduled_scrape`: process every active company in order;
no run-state flag is set, checked or cleared. -/
def scheduled_scrape (search : Company → Except (List Char) (List PyJson))
    (scoreFn : PyJson → Except (List Char) PyJson) (now : Nat)
    (sys : Sys) : Sys :=
  (get_active_companies sys.db).foldl (scheduled_step search scoreFn now) sys

/-- The scrape_logs row that processing company `c` appends, as a function
of the pure search and scoring calls (it does not depend on the database
state accumulated so far). -/
def logOf (search : Company → Except (List Char) (List PyJson))
    (scoreFn : PyJson → Except (List Char) PyJson) (now : Nat)
    (c : Company) : ScrapeLog :=
  match search c with
  | .error e =>
    { company_id := c.id, started_at := now, finished_at := now,
      roles_found := 0, roles_qualified := 0, status := "error".toList,
      error := some e }
  | .ok roles =>
    { company_id := c.id, started_at := now, finished_at := now,
      roles_found := roles.length,
      roles_qualified := countQualified (score_roles_batch scoreFn roles),
      status := "completed".toList, error := none }

instance : IsTotal Role scoreRecencyDesc :=
  ⟨by intro a b; unfold scoreRecencyDesc; omega⟩

instance : IsTrans Role scoreRecencyDesc :=
  ⟨by intro a b c h1 h2; unfold scoreRecencyDesc at h1 h2 ⊢; omega⟩

instance : IsTotal Role scoreDesc :=
  ⟨by intro a b; unfold scoreDesc; omega⟩

instance : IsTrans Role scoreDesc :=
  ⟨by intro a b c h1 h2; unfold scoreDesc at h1 h2 ⊢; omega⟩

/-- The idle `_scrape_status` value. -/
def idleStatus : ScrapeStatus :=
  { is_running := false, current_company := none, progress := [] }

/-- A running `_scrape_status` value, as set by `_run_scrape`. -/
def runningStatus : ScrapeStatus :=
  { is_running := true, current_company := none, progress := [] }

def demoCompany1 : Company :=
  { id := 1, name := "Acme".toList, careers_url := "https://acme.example/careers".toList,
    active := 1, last_scraped_at := none }

def demoCompany2 : Company :=
  { id := 2, name := "Beta".toList, careers_url := "https://beta.example/jobs".toList,
    active := 1, last_scraped_at := none }

def demoCompany3 : Company :=
  { id := 3, name := "Gamma".toList, careers_url := "https://gamma.example/jobs".toList,
    active := 1, last_scraped_at := none }

/-- Two roles of the same company with equal score 50, the row seen earlier
(`last_seen_at = 10`) stored before the later one (`last_seen_at = 20`). -/
def demoRoleOld : Role :=
  { id := 1, company_id := 1, title := "Strategy Lead".toList, url := [],
    location := "London".toList, description := [], seniority := [], department := [],
    posted_date := none, score := 50, score_breakdown := [], status := "new".toList,
    first_seen_at := 10, last_seen_at := 10, applied_at := none }

def demoRoleNew : Role :=
  { id := 2, company_id := 1, title := "BizDev Manager".toList, url := [],
    location := "London".toList, description := [], seniority := [], department := [],
    posted_date := none, score := 50, score_breakdown := [], status := "new".toList,
    first_seen_at := 20, last_seen_at := 20, applied_at := none }

def demoDbTie : DB :=
  { companies := [demoCompany1], roles := [demoRoleOld, demoRoleNew],
    scrape_logs := [], next_role_id := 3, next_company_id := 2 }

/-- Roles scored 79 and 80 at the qualification boundary. -/
def demoRole79 : Role :=
  { id := 1, company_id := 1, title := "Ops Strategy".toList, url := [],
    location := "London".toList, description := [], seniority := [], department := [],
    posted_date := none, score := 79, score_breakdown := [], status := "new".toList,
    first_seen_at := 10, last_seen_at := 10, applied_at := none }

def demoRole80 : Role :=
  { id := 2, company_id := 1, title := "Chief of Staff".toList, url := [],
    location := "London".toList, description := [], seniority := [], department := [],
    posted_date := none, score := 80, score_breakdown := [], status := "new".toList,
    first_seen_at := 20, last_seen_at := 20, applied_at := none }

def demoDbScores : DB :=
  { companies := [demoCompany1], roles := [demoRole79, demoRole80],
    scrape_logs := [], next_role_id := 3, next_company_id := 2 }

/-- A one-company database with no roles yet. -/
def demoDb1 : DB :=
  { companies := [demoCompany1], roles := [], scrape_logs := [],
    next_role_id := 1, next_company_id := 2 }

/-- A two-company database with no roles yet. -/
def demoDb2 : DB :=
  { companies := [demoCompany1, demoCompany2], roles := [], scrape_logs := [],
    next_role_id := 1, next_company_id := 3 }

/-- A three-company database with no roles yet. -/
def demoDb3 : DB :=
  { companies := [demoCompany1, demoCompany2, demoCompany3], roles := [],
    scrape_logs := [], next_role_id := 1, next_company_id := 4 }

def demoSysIdle1 : Sys := { db := demoDb1, status := idleStatus }

def demoSysIdle2 : Sys := { db := demoDb2, status := idleStatus }

def demoSysIdle3 : Sys := { db := demoDb3, status := idleStatus }

def demoSysRunning : Sys := { db := demoDb1, status := runningStatus }

/-- A search client that finds no roles. -/
def demoSearchEmpty : Company → Except (List Char) (List PyJson) := fun _ => .ok []

/-- A scoring client returning an empty score object. -/
def demoScoreOk : PyJson → Except (List Char) PyJson := fun _ => .ok (.obj [])

/-- A search result role carrying a posted date. -/
def demoRolePosted : PyJson :=
  .obj [("title".toList, .str "PM".toList),
        ("posted_date".toList, .str "2024-03-01".toList)]

/-- A search client returning the single dated role for every company. -/
def demoSearchPosted : Company → Except (List Char) (List PyJson) :=
  fun _ => .ok [demoRolePosted]

/-- A search client failing on company 2 only. -/
def demoSearchFail2 : Company → Except (List Char) (List PyJson) :=
  fun c => if c.id = 2 then .error "boom".toList else .ok []

/-- A scoring response whose `total_score` is out of the 0–100 range. -/
def parsed150 : PyJson := .obj [("total_score".toList, .int 150)]

/-- The raw scoring-service text that parses to `parsed150`. -/
def demo150Text : List Char := "\x7b\"total_score\": 150\x7d".toList

/-- A scoring client returning the out-of-range parsed response. -/
def demoScore150 : PyJson → Except (List Char) PyJson := fun _ => .ok parsed150

/-- A search result role with only a title. -/
def demoRoleSimple : PyJson := .obj [("title".toList, .str "PM".toList)]

/-- A search client returning the single plain role for every company. -/
def demoSearchOne : Company → Except (List Char) (List PyJson) :=
  fun _ => .ok [demoRoleSimple]

theorem upsert_role_scrape_logs (db : DB) (now cid : Nat)
    (t u l d sn dp : List Char) (sc : Int) (bd : PyJson) (pd : Option PyJson) :
    (upsert_role db now cid t u l d sn dp sc bd pd).scrape_logs = db.scrape_logs := by
  unfold upsert_role
  cases db.roles.find? (roleKeyIs cid t l) <;> rfl

theorem upsert_role_companies (db : DB) (now cid : Nat)
    (t u l d sn dp : List Char) (sc : Int) (bd : PyJson) (pd : Option PyJson) :
    (upsert_role db now cid t u l d sn dp sc bd pd).companies = db.companies := by
  unfold upsert_role
  cases db.roles.find? (roleKeyIs cid t l) <;> rfl

/-- Any row present after an upsert is either an untouched old row or carries
the upsert's freshly written fields (and, when newly inserted, the creation
defaults). -/
theorem upsert_role_mem (db : DB) (now cid : Nat)
    (t u l d sn dp : List Char) (sc : Int) (bd : PyJson) (pd : Option PyJson)
    (r : Role) (hr : r ∈ (upsert_role db now cid t u l d sn dp sc bd pd).roles) :
    r ∈ db.roles ∨
      (r.url = u ∧ r.description = d ∧ r.seniority = sn ∧ r.department = dp ∧
       r.posted_date = pd ∧ r.score = sc ∧
       r.score_breakdown = breakdownJson bd ∧ r.last_seen_at = now) := by
  unfold upsert_role at hr
  cases hfind : db.roles.find? (roleKeyIs cid t l) with
  | some existing =>
    rw [hfind] at hr
    simp only [List.mem_map] at hr
    obtain ⟨x, hx, hfx⟩ := hr
    by_cases hid : x.id = existing.id
    · right
      rw [if_pos hid] at hfx
      subst hfx
      simp
    · left
      rw [if_neg hid] at hfx
      subst hfx
      exact hx
  | none =>
    rw [hfind] at hr
    simp only [List.mem_append, List.mem_singleton] at hr
    rcases hr with h | h
    · exact Or.inl h
    · right
      subst h
      simp

theorem foldl_upsert_scored_logs (now : Nat) (c : Company)
    (scored : List (PyJson × PyJson)) (db : DB) :
    (scored.foldl (upsert_scored_role now c) db).scrape_logs = db.scrape_logs := by
  induction scored generalizing db with
  | nil => rfl
  | cons p ps ih =>
    simp only [List.foldl_cons]
    rw [ih]
    exact upsert_role_scrape_logs ..

theorem update_company_scraped_logs (db : DB) (now cid : Nat) :
    (update_company_scraped db now cid).scrape_logs = db.scrape_logs := rfl

theorem update_company_scraped_roles (db : DB) (now cid : Nat) :
    (update_company_scraped db now cid).roles = db.roles := rfl

theorem log_scrape_roles (db : DB) (now cid rf rq : Nat) (st : List Char)
    (e : Option (List Char)) :
    (log_scrape db now cid rf rq st e).roles = db.roles := rfl

/-- Processing one company appends exactly its log row (whose content
depends only on the pure search and scoring calls, not on the accumulated
database). -/
theorem process_company_logs (search : Company → Except (List Char) (List PyJson))
    (scoreFn : PyJson → Except (List Char) PyJson) (now : Nat) (sys : Sys) (c : Company) :
    (process_company search scoreFn now sys c).db.scrape_logs =
      sys.db.scrape_logs ++ [logOf search scoreFn now c] := by
  unfold process_company logOf
  cases search c with
  | error e => rfl
  | ok roles =>
    simp only [log_scrape, update_company_scraped_logs, foldl_upsert_scored_logs]

theorem process_company_is_running (search : Company → Except (List Char) (List PyJson))
    (scoreFn : PyJson → Except (List Char) PyJson) (now : Nat) (sys : Sys) (c : Company) :
    (process_company search scoreFn now sys c).status.is_running =
      sys.status.is_running := by
  unfold process_company
  cases search c <;> rfl

theorem foldl_process_logs (search : Company → Except (List Char) (List PyJson))
    (scoreFn : PyJson → Except (List Char) PyJson) (now : Nat)
    (cs : List Company) (sys : Sys) :
    (cs.foldl (process_company search scoreFn now) sys).db.scrape_logs =
      sys.db.scrape_logs ++ cs.map (logOf search scoreFn now) := by
  induction cs generalizing sys with
  | nil => simp
  | cons c cs ih =>
    simp only [List.foldl_cons, List.map_cons]
    rw [ih, process_company_logs]
    simp

theorem foldl_process_is_running (search : Company → Except (List Char) (List PyJson))
    (scoreFn : PyJson → Except (List Char) PyJson) (now : Nat)
    (cs : List Company) (sys : Sys) :
    (cs.foldl (process_company search scoreFn now) sys).status.is_running =
      sys.status.is_running := by
  induction cs generalizing sys with
  | nil => rfl
  | cons c cs ih =>
    simp only [List.foldl_cons]
    rw [ih, process_company_is_running]

theorem scheduled_step_status (search : Company → Except (List Char) (List PyJson))
    (scoreFn : PyJson → Except (List Char) PyJson) (now : Nat) (sys : Sys) (c : Company) :
    (scheduled_step search scoreFn now sys c).status = sys.status := by
  unfold scheduled_step
  cases search c <;> rfl

theorem foldl_scheduled_status (search : Company → Except (List Char) (List PyJson))
    (scoreFn : PyJson → Except (List Char) PyJson) (now : Nat)
    (cs : List Company) (sys : Sys) :
    (cs.foldl (scheduled_step search scoreFn now) sys).status = sys.status := by
  induction cs generalizing sys with
  | nil => rfl
  | cons c cs ih =>
    simp only [List.foldl_cons]
    rw [ih, scheduled_step_status]

theorem foldl_upsert_sched_mem (now : Nat) (c : Company)
    (scored : List (PyJson × PyJson)) (db : DB) (r : Role)
    (hr : r ∈ (scored.foldl (upsert_scored_role_sched now c) db).roles) :
    r ∈ db.roles ∨ r.posted_date = none := by
  induction scored generalizing db with
  | nil => exact Or.inl hr
  | cons p ps ih =>
    simp only [List.foldl_cons] at hr
    rcases ih _ hr with h | h
    · rcases upsert_role_mem _ _ _ _ _ _ _ _ _ _ _ _ _ h with h2 | h2
      · exact Or.inl h2
      · exact Or.inr h2.2.2.2.2.1
    · exact Or.inr h

theorem scheduled_step_posted (search : Company → Except (List Char) (List PyJson))
    (scoreFn : PyJson → Except (List Char) PyJson) (now : Nat) (sys : Sys)
    (c : Company) (r : Role)
    (hr : r ∈ (scheduled_step search scoreFn now sys c).db.roles) :
    r ∈ sys.db.roles ∨ r.posted_date = none := by
  unfold scheduled_step at hr
  cases hs : search c with
  | error e =>
    rw [hs] at hr
    exact Or.inl hr
  | ok roles =>
    rw [hs] at hr
    simp only [log_scrape_roles, update_company_scraped_roles] at hr
    exact foldl_upsert_sched_mem _ _ _ _ _ hr

theorem foldl_scheduled_posted (search : Company → Except (List Char) (List PyJson))
    (scoreFn : PyJson → Except (List Char) PyJson) (now : Nat)
    (cs : List Company) (sys : Sys) (r : Role)
    (hr : r ∈ (cs.foldl (scheduled_step search scoreFn now) sys).db.roles) :
    r ∈ sys.db.roles ∨ r.posted_date = none := by
  induction cs generalizing sys with
  | nil => exact Or.inl hr
  | cons c cs ih =>
    simp only [List.foldl_cons] at hr
    rcases ih _ hr with h | h
    · exact scheduled_step_posted _ _ _ _ _ _ h
    · exact Or.inr h


theorem splitNl_ne_nil (l : List Char) : splitNl l ≠ [] := by
  rw [splitNl.eq_def]
  match l with
  | [] => simp
  | c :: r =>
    simp only []
    split
    · simp
    · split <;> simp

theorem splitNl_cons_nl (r : List Char) : splitNl ('\n' :: r) = [] :: splitNl r := by
  rw [splitNl.eq_def]
  simp

theorem splitNl_cons_ne (c : Char) (r : List Char) (h : c ≠ '\n') :
    splitNl (c :: r) = (c :: (splitNl r).headI) :: (splitNl r).tail := by
  rw [splitNl.eq_def]
  simp only [if_neg h]
  cases hsp : splitNl r with
  | nil => exact absurd hsp (splitNl_ne_nil r)
  | cons h2 t2 => simp

theorem joinNl_cons_cons (l1 l2 : List Char) (ls : List (List Char)) :
    joinNl (l1 :: l2 :: ls) = l1 ++ '\n' :: joinNl (l2 :: ls) := rfl

theorem joinNl_splitNl (l : List Char) : joinNl (splitNl l) = l := by
  induction l with
  | nil => rfl
  | cons c t ih =>
    by_cases h : c = '\n'
    · subst h
      rw [splitNl_cons_nl]
      obtain ⟨h2, t2, hsp⟩ := List.exists_cons_of_ne_nil (splitNl_ne_nil t)
      rw [hsp, joinNl_cons_cons, ← hsp, ih]
      rfl
    · rw [splitNl_cons_ne c t h]
      obtain ⟨h2, t2, hsp⟩ := List.exists_cons_of_ne_nil (splitNl_ne_nil t)
      rw [hsp] at ih ⊢
      simp only [List.headI, List.tail]
      cases t2 with
      | nil => simp_all [joinNl]
      | cons h3 t4 =>
        rw [joinNl_cons_cons] at ih ⊢
        rw [← ih]
        simp

theorem splitNl_no_nl (l : List Char) (h : '\n' ∉ l) : splitNl l = [l] := by
  induction l with
  | nil => rfl
  | cons c t ih =>
    have hc : c ≠ '\n' := fun he => h (he ▸ List.mem_cons_self c t)
    have ht : '\n' ∉ t := fun he => h (List.mem_cons_of_mem c he)
    rw [splitNl_cons_ne c t hc, ih ht]
    rfl

theorem splitNl_append_nl (pre rest : List Char) (h : '\n' ∉ pre) :
    splitNl (pre ++ '\n' :: rest) = pre :: splitNl rest := by
  induction pre with
  | nil => simp [splitNl_cons_nl]
  | cons c p ih =>
    have hc : c ≠ '\n' := fun he => h (he ▸ List.mem_cons_self c p)
    have hp : '\n' ∉ p := fun he => h (List.mem_cons_of_mem c he)
    rw [List.cons_append, splitNl_cons_ne c _ hc, ih hp]
    rfl

theorem splitNl_append_last (xs ftr : List Char) (h : '\n' ∉ ftr) :
    splitNl (xs ++ '\n' :: ftr) = splitNl xs ++ [ftr] := by
  induction xs with
  | nil => simp [splitNl_cons_nl, splitNl_no_nl ftr h, splitNl]
  | cons c p ih =>
    by_cases hc : c = '\n'
    · subst hc
      rw [List.cons_append, splitNl_cons_nl, ih, splitNl_cons_nl]
      rfl
    · rw [List.cons_append, splitNl_cons_ne c _ hc, ih, splitNl_cons_ne c p hc]
      obtain ⟨h2, t2, hsp⟩ := List.exists_cons_of_ne_nil (splitNl_ne_nil p)
      rw [hsp]
      rfl

theorem pyLstrip_of_head (s : List Char)
    (h : ∀ c ∈ s.head?, isPySpace c = false) : pyLstrip s = s := by
  cases s with
  | nil => rfl
  | cons c t =>
    simp only [List.head?_cons, Option.mem_some_iff] at h
    simp [pyLstrip, List.dropWhile_cons, h c rfl]

theorem pyRstrip_of_getLast (s : List Char)
    (h : ∀ c ∈ s.getLast?, isPySpace c = false) : pyRstrip s = s := by
  unfold pyRstrip
  rw [← List.head?_reverse] at h
  cases hs : s.reverse with
  | nil =>
    have : s = [] := List.reverse_eq_nil_iff.mp hs
    subst this
    rfl
  | cons c t =>
    rw [hs] at h
    simp only [List.head?_cons, Option.mem_some_iff] at h
    rw [List.dropWhile_cons, if_neg (by simp [h c rfl]), ← hs, List.reverse_reverse]

theorem pyStrip_of_ends (s : List Char)
    (h1 : ∀ c ∈ s.head?, isPySpace c = false)
    (h2 : ∀ c ∈ s.getLast?, isPySpace c = false) : pyStrip s = s := by
  unfold pyStrip
  rw [pyLstrip_of_head s h1, pyRstrip_of_getLast s h2]

theorem pyLstrip_of_strip_eq (s : List Char) (h : pyStrip s = s) :
    pyLstrip s = s := by
  have hsub : (pyLstrip s).Sublist s := List.dropWhile_sublist _
  have h1 : (pyRstrip (pyLstrip s)).length ≤ (pyLstrip s).length := by
    unfold pyRstrip
    rw [List.length_reverse]
    calc ((pyLstrip s).reverse.dropWhile isPySpace).length
        ≤ (pyLstrip s).reverse.length := (List.dropWhile_sublist _).length_le
      _ = (pyLstrip s).length := List.length_reverse _
  have h2 : s.length ≤ (pyLstrip s).length := by
    conv_lhs => rw [← h]
    exact h1
  exact hsub.eq_of_length (Nat.le_antisymm hsub.length_le h2)

theorem joinRoles_eq_roles_aux (db : DB) (l : List Role)
    (h : ∀ r ∈ l, (db.companies.filter (fun c => c.id = r.company_id)).length = 1) :
    (l.foldr (fun r acc =>
      (db.companies.filter (fun c => c.id = r.company_id)).map (fun _ => r) ++ acc) []) = l := by
  induction l with
  | nil => rfl
  | cons r t ih =>
    simp only [List.foldr_cons]
    obtain ⟨c, hc⟩ := List.length_eq_one.mp (h r (List.mem_cons_self r t))
    rw [hc, ih (fun x hx => h x (List.mem_cons_of_mem r hx))]
    rfl

theorem joinRoles_eq_roles (db : DB)
    (h : ∀ r ∈ db.roles, (db.companies.filter (fun c => c.id = r.company_id)).length = 1) :
    joinRoles db = db.roles :=
  joinRoles_eq_roles_aux db db.roles h

/-- C9: adding a company whose name already exists leaves the companies
table unchanged — same count, every row untouched — and raises no error
(`ON CONFLICT (name) DO NOTHING`; the function is total and only the
internal SERIAL sequence advances). -/
theorem add_company_duplicate_noop (db : DB) (name careers_url : List Char)
    (h : db.companies.any (fun c => c.name = name) = true) :
    (add_company db name careers_url).companies = db.companies := by
  unfold add_company
  rw [if_pos h]

theorem add_company_duplicate_noop_witness :
    (demoDb1.companies.any (fun c => c.name = "Acme".toList) = true) ∧
      (add_company demoDb1 "Acme".toList "https://other.example".toList).companies =
        demoDb1.companies :=
  ⟨by decide, add_company_duplicate_noop demoDb1 "Acme".toList
    "https://other.example".toList (by decide)⟩

/-- C1: upserting the same (company_id, title, location) key twice — with a
user marking the role applied in between — leaves exactly one row with that
key; after the second upsert its url, description, seniority, department,
posted_date, score and score_breakdown are the second call's arguments
(the breakdown in serialized form), while status `'applied'`, the stamped
`applied_at` and the original `first_seen_at` survive, and `last_seen_at`
is the second call's time. -/
theorem upsert_role_twice_merge (companies : List Company) (logs : List ScrapeLog)
    (nrid ncid cid : Nat) (title loc : List Char)
    (u1 d1 sn1 dp1 : List Char) (sc1 : Int) (bd1 : PyJson) (pd1 : Option PyJson)
    (t1 tA : Nat)
    (u2 d2 sn2 dp2 : List Char) (sc2 : Int) (bd2 : PyJson) (pd2 : Option PyJson)
    (t2 : Nat) :
    let db0 : DB := { companies := companies, roles := [], scrape_logs := logs,
                      next_role_id := nrid, next_company_id := ncid }
    let db1 := upsert_role db0 t1 cid title u1 loc d1 sn1 dp1 sc1 bd1 pd1
    let db2 := mark_role_applied db1 tA nrid
    let db3 := upsert_role db2 t2 cid title u2 loc d2 sn2 dp2 sc2 bd2 pd2
    db3.roles = [({ id := nrid, company_id := cid, title := title, url := u2,
                    location := loc, description := d2, seniority := sn2,
                    department := dp2, posted_date := pd2, score := sc2,
                    score_breakdown := breakdownJson bd2,
                    status := "applied".toList, first_seen_at := t1,
                    last_seen_at := t2, applied_at := some tA } : Role)] ∧
    (db3.roles.filter (roleKeyIs cid title loc)).length = 1 := by
  intro db0 db1 db2 db3
  have h1 : db1.roles = [({ id := nrid, company_id := cid, title := title, url := u1,
                            location := loc, description := d1, seniority := sn1,
                            department := dp1, posted_date := pd1, score := sc1,
                            score_breakdown := breakdownJson bd1,
                            status := "new".toList, first_seen_at := t1,
                            last_seen_at := t1, applied_at := none } : Role)] := by
    simp [db1, db0, upsert_role]
  have h2 : db2.roles = [({ id := nrid, company_id := cid, title := title, url := u1,
                            location := loc, description := d1, seniority := sn1,
                            department := dp1, posted_date := pd1, score := sc1,
                            score_breakdown := breakdownJson bd1,
                            status := "applied".toList, first_seen_at := t1,
                            last_seen_at := t1, applied_at := some tA } : Role)] := by
    simp only [db2, mark_role_applied, h1, List.map_cons, List.map_nil]
    simp
  have h3 : db3.roles = [({ id := nrid, company_id := cid, title := title, url := u2,
                            location := loc, description := d2, seniority := sn2,
                            department := dp2, posted_date := pd2, score := sc2,
                            score_breakdown := breakdownJson bd2,
                            status := "applied".toList, first_seen_at := t1,
                            last_seen_at := t2, applied_at := some tA } : Role)] := by
    simp only [db3, upsert_role, h2]
    simp [roleKeyIs, List.find?]
  refine ⟨h3, ?_⟩
  rw [h3]
  simp [roleKeyIs]

/-- C10: listing roles for a (nonzero) company id ignores `qualified_only`:
the dispatch goes to the by-company query for either flag value, and under
referential integrity with unique company ids the result is a permutation
of every stored role of that company, with no score filtering. -/
theorem list_roles_by_company_ignores_qualified (db : DB) (cid : Nat) (q : Bool)
    (hcid : cid ≠ 0)
    (hjoin : ∀ r ∈ db.roles, (db.companies.filter (fun c => c.id = r.company_id)).length = 1) :
    list_roles db q (some cid) = get_roles_by_company db cid ∧
    list_roles db true (some cid) = list_roles db false (some cid) ∧
    (list_roles db q (some cid)).Perm (db.roles.filter (fun r => r.company_id = cid)) := by
  have hd : ∀ b : Bool, list_roles db b (some cid) = get_roles_by_company db cid := by
    intro b
    show (if cid ≠ 0 then get_roles_by_company db cid
      else if b then get_qualified_roles db SCORE_THRESHOLD else get_all_roles db) =
      get_roles_by_company db cid
    rw [if_pos hcid]
  refine ⟨hd q, (hd true).trans (hd false).symm, ?_⟩
  rw [hd q]
  unfold get_roles_by_company
  rw [joinRoles_eq_roles db hjoin]
  exact List.perm_insertionSort _ _

theorem list_roles_by_company_ignores_qualified_witness :
    ((1 : Nat) ≠ 0) ∧
    (∀ r ∈ demoDbScores.roles,
      (demoDbScores.companies.filter (fun c => c.id = r.company_id)).length = 1) ∧
    (list_roles demoDbScores true (some 1) = get_roles_by_company demoDbScores 1 ∧
     list_roles demoDbScores true (some 1) = list_roles demoDbScores false (some 1) ∧
     (list_roles demoDbScores true (some 1)).Perm
       (demoDbScores.roles.filter (fun r => r.company_id = 1))) :=
  ⟨by decide, by decide,
    list_roles_by_company_ignores_qualified demoDbScores 1 true (by decide) (by decide)⟩

/-- C3 counterexample: on the unparsable response text `{bad}` — which
contains a brace-delimited substring that is itself invalid JSON — the
parsing of `score_role` does not return the zero-score Error result: the
uncaught fallback `json.loads` failure propagates as an exception. -/
theorem score_role_parse_brace_garbage_raises :
    score_role_parse "\x7bbad\x7d".toList = .error "JSONDecodeError".toList :=
  rfl

/-- C3 amended: when the fence-stripped response text fails strict parsing
and contains no brace-delimited substring, `score_role` returns the default
result with `total_score = 0`, `recommendation = "Error"` and an explanatory
red flag, without raising; when a brace-delimited substring exists but is
invalid JSON, `score_role` raises instead, and `score_roles_batch` catches
the raise and substitutes an equivalent zero-score `"Error"` result, so the
batch never propagates a failure. -/
theorem score_role_parse_amended :
    (∀ content : List Char, jsonParse (stripFence content) = none →
      sliceFound (stripFence content) '{' '}' = false →
      score_role_parse content = .ok parseFailDefault) ∧
    (totalScoreOf parseFailDefault = 0 ∧
     pyDictGet parseFailDefault "recommendation".toList .null = .str "Error".toList ∧
     pyDictGet parseFailDefault "red_flags".toList .null =
       .arr [.str "Failed to parse scoring response".toList]) ∧
    (∀ (scoreFn : PyJson → Except (List Char) PyJson) (roles : List PyJson)
       (r : PyJson) (e : List Char), r ∈ roles → scoreFn r = .error e →
      (r, scoringErrorSub e) ∈ score_roles_batch scoreFn roles) ∧
    (∀ e : List Char, totalScoreOf (scoringErrorSub e) = 0 ∧
      pyDictGet (scoringErrorSub e) "recommendation".toList .null = .str "Error".toList) := by
  refine ⟨?_, ⟨rfl, rfl, rfl⟩, ?_, ?_⟩
  · intro content h1 h2
    unfold score_role_parse
    simp [h1, h2]
  · intro scoreFn roles r e hr he
    have : (fun r => match scoreFn r with
        | .ok v => (r, v)
        | .error e => (r, scoringErrorSub e)) r = (r, scoringErrorSub e) := by
      simp only [he]
    exact this ▸ List.mem_map_of_mem _ hr
  · intro e
    exact ⟨rfl, rfl⟩

theorem score_role_parse_amended_witness :
    (jsonParse (stripFence "no json here".toList) = none) ∧
    (sliceFound (stripFence "no json here".toList) '{' '}' = false) ∧
    (score_role_parse "no json here".toList = .ok parseFailDefault) ∧
    ((PyJson.obj [], scoringErrorSub "boom".toList) ∈
      score_roles_batch (fun _ => .error "boom".toList) [PyJson.obj []]) :=
  ⟨rfl, rfl,
    score_role_parse_amended.1 "no json here".toList rfl rfl,
    score_role_parse_amended.2.2.1 (fun _ => .error "boom".toList) [PyJson.obj []]
      (PyJson.obj []) "boom".toList (List.mem_singleton.mpr rfl) rfl⟩

/-- C5 counterexample: with two roles of company 1 sharing score 50, the
older row (`last_seen_at = 10`) stored first, `get_roles_by_company` — whose
query orders by `score DESC` only — returns the older row before the newer
one, so the listing is not ordered by descending recency within equal
scores. -/
theorem get_roles_by_company_no_recency_tiebreak :
    get_roles_by_company demoDbTie 1 = [demoRoleOld, demoRoleNew] ∧
    ¬ List.Pairwise scoreRecencyDesc (get_roles_by_company demoDbTie 1) := by
  constructor
  · rfl
  · intro h
    have h2 : scoreRecencyDesc demoRoleOld demoRoleNew := by
      have := h
      rw [(rfl : get_roles_by_company demoDbTie 1 = [demoRoleOld, demoRoleNew])] at this
      exact (List.pairwise_cons.mp this).1 demoRoleNew (List.mem_singleton.mpr rfl)
    unfold scoreRecencyDesc demoRoleOld demoRoleNew at h2
    simp at h2

/-- C5 amended: the qualified and unfiltered listings are ordered by
descending score and, within equal scores, by descending `last_seen_at`, and
the qualified listing holds exactly the joined roles with
`score >= threshold`; the by-company listing is ordered by descending score
only, with no recency tiebreak among equal scores. -/
theorem role_listing_order_amended (db : DB) (thr : Int) (cid : Nat)
    (hjoin : ∀ r ∈ db.roles, (db.companies.filter (fun c => c.id = r.company_id)).length = 1) :
    List.Pairwise scoreRecencyDesc (get_qualified_roles db thr) ∧
    List.Pairwise scoreRecencyDesc (get_all_roles db) ∧
    List.Pairwise scoreDesc (get_roles_by_company db cid) ∧
    (get_qualified_roles db thr).Perm (db.roles.filter (fun r => thr ≤ r.score)) ∧
    (get_all_roles db).Perm db.roles ∧
    (get_roles_by_company db cid).Perm (db.roles.filter (fun r => r.company_id = cid)) ∧
    (∀ r, r ∈ get_qualified_roles db thr ↔ r ∈ db.roles ∧ thr ≤ r.score) := by
  have hq : (get_qualified_roles db thr).Perm (db.roles.filter (fun r => thr ≤ r.score)) := by
    unfold get_qualified_roles
    rw [joinRoles_eq_roles db hjoin]
    exact List.perm_insertionSort _ _
  have ha : (get_all_roles db).Perm db.roles := by
    unfold get_all_roles
    rw [joinRoles_eq_roles db hjoin]
    exact List.perm_insertionSort _ _
  have hc : (get_roles_by_company db cid).Perm
      (db.roles.filter (fun r => r.company_id = cid)) := by
    unfold get_roles_by_company
    rw [joinRoles_eq_roles db hjoin]
    exact List.perm_insertionSort _ _
  refine ⟨List.sorted_insertionSort _ _, List.sorted_insertionSort _ _,
    List.sorted_insertionSort _ _, hq, ha, hc, ?_⟩
  intro r
  rw [hq.mem_iff, List.mem_filter]
  simp

theorem role_listing_order_amended_witness :
    (∀ r ∈ demoDbScores.roles,
      (demoDbScores.companies.filter (fun c => c.id = r.company_id)).length = 1) ∧
    (List.Pairwise scoreRecencyDesc (get_qualified_roles demoDbScores 80) ∧
     List.Pairwise scoreRecencyDesc (get_all_roles demoDbScores) ∧
     List.Pairwise scoreDesc (get_roles_by_company demoDbScores 1) ∧
     (get_qualified_roles demoDbScores 80).Perm
       (demoDbScores.roles.filter (fun r => (80 : Int) ≤ r.score)) ∧
     (get_all_roles demoDbScores).Perm demoDbScores.roles ∧
     (get_roles_by_company demoDbScores 1).Perm
       (demoDbScores.roles.filter (fun r => r.company_id = 1)) ∧
     (∀ r, r ∈ get_qualified_roles demoDbScores 80 ↔
        r ∈ demoDbScores.roles ∧ (80 : Int) ≤ r.score)) :=
  ⟨by decide, role_listing_order_amended demoDbScores 80 1 (by decide)⟩

/-- C7 counterexample: a valid JSON array of one role object parses to that
object unwrapped, but the same array fenced on a single line parses to the
empty sequence, because fence stripping drops the first and last lines and
leaves no text; so fenced parsing is not layout-independent. -/
theorem scrape_fence_layout_dependent :
    scrape_company_roles_parse "[\x7b\"title\": \"a\"\x7d]".toList
      = [PyJson.obj [("title".toList, PyJson.str ['a'])]] ∧
    scrape_company_roles_parse "``` [\x7b\"title\": \"a\"\x7d] ```".toList = [] ∧
    ([] : List PyJson) ≠ [PyJson.obj [("title".toList, PyJson.str ['a'])]] :=
  ⟨rfl, rfl, by simp⟩

/-- C7 amended: for every text that strict-parses as a JSON array (stripped,
hence starting with `[`), wrapping it in a markdown code fence whose opening
fence is its own first line and whose closing fence is its own last line
parses to exactly the same sequence as the unwrapped text; a fence sharing a
line with the JSON content instead yields the empty sequence. -/
theorem scrape_fence_equiv (hrest body : List Char) (xs : List PyJson)
    (hh : '\n' ∉ hrest)
    (hs : pyStrip body = body)
    (hb : body.head? = some '[')
    (hp : jsonParse body = some (.arr xs)) :
    scrape_company_roles_parse
      (('`' :: '`' :: '`' :: hrest) ++ '\n' :: body ++ '\n' :: ['`', '`', '`']) = xs ∧
    scrape_company_roles_parse body = xs := by
  have hhead : ∀ c ∈ (((('`' : Char) :: '`' :: '`' :: hrest) ++
      '\n' :: body ++ '\n' :: ['`', '`', '`'])).head?, isPySpace c = false := by
    intro c hc
    simp only [List.cons_append, List.head?_cons, Option.mem_some_iff] at hc
    subst hc
    decide
  have hlast0 : ((('`' : Char) :: '`' :: '`' :: hrest) ++
      '\n' :: body ++ '\n' :: ['`', '`', '`']).getLast? = some '`' := by
    rw [List.getLast?_append, List.getLast?_append]
    rfl
  have hlast : ∀ c ∈ ((('`' : Char) :: '`' :: '`' :: hrest) ++
      '\n' :: body ++ '\n' :: ['`', '`', '`']).getLast?, isPySpace c = false := by
    rw [hlast0]
    intro c hc
    simp only [Option.mem_some_iff] at hc
    subst hc
    decide
  have hstrip : pyStrip ((('`' : Char) :: '`' :: '`' :: hrest) ++
      '\n' :: body ++ '\n' :: ['`', '`', '`']) =
      (('`' : Char) :: '`' :: '`' :: hrest) ++ '\n' :: body ++ '\n' :: ['`', '`', '`'] :=
    pyStrip_of_ends _ hhead hlast
  have hstart : pyStartsWith ((('`' : Char) :: '`' :: '`' :: hrest) ++
      '\n' :: body ++ '\n' :: ['`', '`', '`']) ['`', '`', '`'] = true := by
    simp [pyStartsWith, List.isPrefixOf, List.cons_append]
  have hA : ('\n' : Char) ∉ ('`' : Char) :: '`' :: '`' :: hrest := by
    intro hmem
    simp only [List.mem_cons] at hmem
    rcases hmem with h | h | h | h
    · exact absurd h (by decide)
    · exact absurd h (by decide)
    · exact absurd h (by decide)
    · exact hh h
  have hsplit : splitNl ((('`' : Char) :: '`' :: '`' :: hrest) ++
      '\n' :: (body ++ '\n' :: ['`', '`', '`'])) =
      (('`' : Char) :: '`' :: '`' :: hrest) :: (splitNl body ++ [['`', '`', '`']]) := by
    rw [splitNl_append_nl _ _ hA, splitNl_append_last _ _ (by decide)]
  have hassoc : (('`' : Char) :: '`' :: '`' :: hrest) ++
      '\n' :: body ++ '\n' :: ['`', '`', '`'] =
      (('`' : Char) :: '`' :: '`' :: hrest) ++
        '\n' :: (body ++ '\n' :: ['`', '`', '`']) := by
    simp
  have hsf : stripFence ((('`' : Char) :: '`' :: '`' :: hrest) ++
      '\n' :: body ++ '\n' :: ['`', '`', '`']) = body := by
    simp only [stripFence, hstrip, hstart, if_true]
    rw [hassoc, hsplit]
    simp only [List.drop_succ_cons, List.drop_zero, List.dropLast_concat]
    exact joinNl_splitNl body
  constructor
  · simp only [scrape_company_roles_parse, hsf, hp]
  · obtain ⟨c0, t, rfl⟩ : ∃ c0 t, body = c0 :: t := by
      cases body with
      | nil => simp at hb
      | cons c0 t => exact ⟨c0, t, rfl⟩
    have hc0 : c0 = '[' := by simpa using hb
    subst hc0
    have hsf2 : stripFence ('[' :: t) = '[' :: t := by
      simp only [stripFence, hs]
      rfl
    simp only [scrape_company_roles_parse, hsf2, hp]

theorem scrape_fence_equiv_witness :
    (('\n' ∉ "json".toList) ∧ pyStrip "[]".toList = "[]".toList ∧
      ("[]".toList).head? = some '[' ∧
      jsonParse "[]".toList = some (.arr [])) ∧
    (scrape_company_roles_parse
      (('`' :: '`' :: '`' :: "json".toList) ++ '\n' :: "[]".toList ++
        '\n' :: ['`', '`', '`']) = [] ∧
     scrape_company_roles_parse "[]".toList = []) :=
  ⟨⟨by decide, rfl, rfl, rfl⟩,
    scrape_fence_equiv "json".toList "[]".toList [] (by decide) rfl rfl rfl⟩

/-- C6 counterexample: in a scheduled (daily) run, a discovered role whose
search result carries `posted_date = "2024-03-01"` — present and different
from `"Not specified"` — is stored with a null `posted_date`, because
scheduler.py never passes `posted_date` to the upsert; the claim's promise
that the stored value then equals the search result's value fails. -/
theorem scheduled_run_drops_posted_date :
    pyDictGet demoRolePosted "posted_date".toList .null = .str "2024-03-01".toList ∧
    ((scheduled_scrape demoSearchPosted demoScoreOk 7 demoSysIdle1).db.roles.map
      (fun r => r.posted_date)) = [none] ∧
    (none : Option PyJson) ≠ some (.str "2024-03-01".toList) := by
  refine ⟨rfl, rfl, ?_⟩
  simp

/-- C6 amended: in manually triggered runs the stored `posted_date` is the
normalized search value — null exactly when the field is absent, falsy
(e.g. the empty string) or the literal `"Not specified"`, and the value
itself otherwise; in scheduled runs the stored `posted_date` is always null
because scheduler.py omits the argument. -/
theorem posted_date_normalization_amended :
    (∀ s : List Char, normalize_posted (.str s) =
      if s.isEmpty || s = "Not specified".toList then none else some (.str s)) ∧
    (normalize_posted .null = none) ∧
    (∀ (now : Nat) (c : Company) (db : DB) (p : PyJson × PyJson) (r : Role),
      r ∈ (upsert_scored_role now c db p).roles →
      r ∈ db.roles ∨
        r.posted_date = normalize_posted (pyDictGet p.1 "posted_date".toList .null)) ∧
    (∀ (search : Company → Except (List Char) (List PyJson))
       (scoreFn : PyJson → Except (List Char) PyJson) (now : Nat) (sys : Sys) (r : Role),
      r ∈ (scheduled_scrape search scoreFn now sys).db.roles →
      r ∈ sys.db.roles ∨ r.posted_date = none) := by
  refine ⟨?_, rfl, ?_, ?_⟩
  · intro s
    by_cases h1 : s.isEmpty <;> by_cases h2 : s = "Not specified".toList <;>
      simp [normalize_posted, pyTruthy, pyEqStr, h1, h2]
  · intro now c db p r hr
    rcases upsert_role_mem _ _ _ _ _ _ _ _ _ _ _ _ _ hr with h | h
    · exact Or.inl h
    · exact Or.inr h.2.2.2.2.1
  · intro search scoreFn now sys r hr
    exact foldl_scheduled_posted _ _ _ _ _ _ hr

theorem posted_date_normalization_amended_witness :
    (normalize_posted (.str "2024-03-01".toList) =
      if ("2024-03-01".toList).isEmpty || "2024-03-01".toList = "Not specified".toList
      then none else some (.str "2024-03-01".toList)) ∧
    (({ id := 1, company_id := 1, title := "PM".toList, url := [], location := [],
        description := [], seniority := [], department := [],
        posted_date := none, score := 0,
        score_breakdown := breakdownJson (PyJson.obj []), status := "new".toList,
        first_seen_at := 7, last_seen_at := 7, applied_at := none } : Role) ∈
      (scheduled_scrape demoSearchPosted demoScoreOk 7 demoSysIdle1).db.roles) ∧
    (({ id := 1, company_id := 1, title := "PM".toList, url := [], location := [],
        description := [], seniority := [], department := [],
        posted_date := none, score := 0,
        score_breakdown := breakdownJson (PyJson.obj []), status := "new".toList,
        first_seen_at := 7, last_seen_at := 7, applied_at := none } : Role) ∈
        demoSysIdle1.db.roles ∨
     ({ id := 1, company_id := 1, title := "PM".toList, url := [], location := [],
        description := [], seniority := [], department := [],
        posted_date := none, score := 0,
        score_breakdown := breakdownJson (PyJson.obj []), status := "new".toList,
        first_seen_at := 7, last_seen_at := 7, applied_at := none } : Role).posted_date
       = none) :=
  ⟨posted_date_normalization_amended.1 "2024-03-01".toList,
   List.mem_singleton.mpr rfl,
   posted_date_normalization_amended.2.2.2 demoSearchPosted demoScoreOk 7 demoSysIdle1 _
     (List.mem_singleton.mpr rfl)⟩

/-- C8 counterexample: a scoring-service response text parsing successfully
to `total_score = 150` flows through a manual run unvalidated — the single
stored role row carries score 150, which is not in the range [0, 100]. -/
theorem score_out_of_range_stored :
    score_role_parse demo150Text = .ok parsed150 ∧
    ((run_scrape demoSearchOne demoScore150 9 none demoSysIdle1).db.roles.map
      (fun r => r.score)) = [150] ∧
    ¬ ((0 : Int) ≤ 150 ∧ (150 : Int) ≤ 100) := by
  refine ⟨rfl, rfl, ?_⟩
  intro h
  omega

/-- C8 amended: the pipeline passes the parsed response's `total_score`
through to the role upsert unvalidated and unclamped; the scoring-failure
substitutes and the parse-failure default both carry `total_score = 0`,
which is in [0, 100], so every stored score lies in [0, 100] exactly when
every successfully parsed scoring response keeps its `total_score` within
that range. -/
theorem score_passthrough_amended :
    (∀ e : List Char, totalScoreOf (scoringErrorSub e) = 0 ∧
      (0 : Int) ≤ totalScoreOf (scoringErrorSub e) ∧ totalScoreOf (scoringErrorSub e) ≤ 100) ∧
    (totalScoreOf parseFailDefault = 0) ∧
    (∀ (now : Nat) (c : Company) (db : DB) (p : PyJson × PyJson) (r : Role),
      r ∈ (upsert_scored_role now c db p).roles →
      r ∈ db.roles ∨ r.score = totalScoreOf p.2) ∧
    (∀ (res : PyJson) (n : Int),
      pyDictGet res "total_score".toList (.int 0) = .int n → totalScoreOf res = n) := by
  refine ⟨?_, rfl, ?_, ?_⟩
  · intro e
    refine ⟨rfl, ?_, ?_⟩
    · show (0 : Int) ≤ 0
      omega
    · show (0 : Int) ≤ 100
      omega
  · intro now c db p r hr
    rcases upsert_role_mem _ _ _ _ _ _ _ _ _ _ _ _ _ hr with h | h
    · exact Or.inl h
    · exact Or.inr h.2.2.2.2.2.1
  · intro res n h
    unfold totalScoreOf
    rw [h]

theorem score_passthrough_amended_witness :
    (pyDictGet parsed150 "total_score".toList (.int 0) = .int 150) ∧
    (totalScoreOf parsed150 = 150) ∧
    (totalScoreOf (scoringErrorSub "boom".toList) = 0 ∧
      (0 : Int) ≤ totalScoreOf (scoringErrorSub "boom".toList) ∧
      totalScoreOf (scoringErrorSub "boom".toList) ≤ 100) :=
  ⟨rfl, score_passthrough_amended.2.2.2 parsed150 150 rfl,
    score_passthrough_amended.1 "boom".toList⟩

/-- C2: in a run over the active companies where exactly one company's
search raises, the run appends exactly one `error` log row for that company
(zero counts, message captured), still appends a `completed` log row with
its counts for every other company, and ends with the run flag back at
idle. -/
theorem run_scrape_error_isolation
    (search : Company → Except (List Char) (List PyJson))
    (scoreFn : PyJson → Except (List Char) PyJson) (now : Nat) (sys : Sys)
    (pre post : List Company) (bad : Company) (e : List Char)
    (hact : get_active_companies sys.db = pre ++ bad :: post)
    (hbad : search bad = .error e)
    (hok : ∀ c ∈ pre ++ post, ∃ rs, search c = .ok rs) :
    (run_scrape search scoreFn now none sys).status.is_running = false ∧
    (run_scrape search scoreFn now none sys).db.scrape_logs =
      sys.db.scrape_logs ++ pre.map (logOf search scoreFn now) ++
      [({ company_id := bad.id, started_at := now, finished_at := now,
          roles_found := 0, roles_qualified := 0, status := "error".toList,
          error := some e } : ScrapeLog)] ++
      post.map (logOf search scoreFn now) ∧
    (∀ c ∈ pre ++ post, (logOf search scoreFn now c).status = "completed".toList ∧
      (logOf search scoreFn now c).error = none) ∧
    (∀ (c : Company) (rs : List PyJson), search c = .ok rs →
      logOf search scoreFn now c =
        { company_id := c.id, started_at := now, finished_at := now,
          roles_found := rs.length,
          roles_qualified := countQualified (score_roles_batch scoreFn rs),
          status := "completed".toList, error := none }) := by
  refine ⟨rfl, ?_, ?_, ?_⟩
  · show ((selectCompanies sys.db none).foldl
      (process_company search scoreFn now) (startRun sys)).db.scrape_logs = _
    show ((get_active_companies sys.db).foldl
      (process_company search scoreFn now) (startRun sys)).db.scrape_logs = _
    rw [hact, foldl_process_logs]
    have hlogbad : logOf search scoreFn now bad =
        { company_id := bad.id, started_at := now, finished_at := now,
          roles_found := 0, roles_qualified := 0, status := "error".toList,
          error := some e } := by
      unfold logOf
      rw [hbad]
    show sys.db.scrape_logs ++ (pre ++ bad :: post).map (logOf search scoreFn now) = _
    rw [List.map_append, List.map_cons, hlogbad]
    simp
  · intro c hc
    obtain ⟨rs, hrs⟩ := hok c hc
    unfold logOf
    rw [hrs]
    exact ⟨rfl, rfl⟩
  · intro c rs h
    unfold logOf
    rw [h]

theorem run_scrape_error_isolation_witness :
    (get_active_companies demoSysIdle3.db =
      [demoCompany1] ++ demoCompany2 :: [demoCompany3]) ∧
    (demoSearchFail2 demoCompany2 = .error "boom".toList) ∧
    (∀ c ∈ [demoCompany1] ++ [demoCompany3], ∃ rs, demoSearchFail2 c = .ok rs) ∧
    ((run_scrape demoSearchFail2 demoScoreOk 11 none demoSysIdle3).status.is_running = false ∧
     (run_scrape demoSearchFail2 demoScoreOk 11 none demoSysIdle3).db.scrape_logs =
       demoSysIdle3.db.scrape_logs ++
       [demoCompany1].map (logOf demoSearchFail2 demoScoreOk 11) ++
       [({ company_id := demoCompany2.id, started_at := 11, finished_at := 11,
           roles_found := 0, roles_qualified := 0, status := "error".toList,
           error := some "boom".toList } : ScrapeLog)] ++
       [demoCompany3].map (logOf demoSearchFail2 demoScoreOk 11) ∧
     (∀ c ∈ [demoCompany1] ++ [demoCompany3],
       (logOf demoSearchFail2 demoScoreOk 11 c).status = "completed".toList ∧
       (logOf demoSearchFail2 demoScoreOk 11 c).error = none) ∧
     (∀ (c : Company) (rs : List PyJson), demoSearchFail2 c = .ok rs →
       logOf demoSearchFail2 demoScoreOk 11 c =
         { company_id := c.id, started_at := 11, finished_at := 11,
           roles_found := rs.length,
           roles_qualified := countQualified (score_roles_batch demoScoreOk rs),
           status := "completed".toList, error := none })) := by
  have hok : ∀ c ∈ [demoCompany1] ++ [demoCompany3], ∃ rs, demoSearchFail2 c = .ok rs := by
    intro c hc
    simp only [List.mem_append, List.mem_singleton] at hc
    rcases hc with h | h <;> subst h <;> exact ⟨[], rfl⟩
  exact ⟨rfl, rfl, hok,
    run_scrape_error_isolation demoSearchFail2 demoScoreOk 11 demoSysIdle3
      [demoCompany1] [demoCompany3] demoCompany2 "boom".toList rfl rfl hok⟩

/-- C4 counterexample: mid-way through a scheduled (daily) run over two
active companies — after the first company is processed — the process-wide
run flag is still down and a manual trigger is accepted rather than
rejected with a conflict, so a scheduled run and a manual run can overlap. -/
theorem scheduled_run_not_guarded :
    let mid := ((get_active_companies demoSysIdle2.db).take 1).foldl
      (scheduled_step demoSearchEmpty demoScoreOk 5) demoSysIdle2
    mid.status.is_running = false ∧ trigger_scrape mid none = .ok none := by
  intro mid
  exact ⟨rfl, rfl⟩

/-- C4 amended: the run-state flag covers manually triggered runs only — a
manual trigger while `is_running` is set is rejected with the conflict error
(and, mutating nothing, leaves the in-progress run unaltered), and the flag
is up throughout the processing of every company prefix of a manual run; a
scheduled run never touches the status, so at every point of its loop the
status is whatever it was before, and a manual trigger received then
behaves exactly as if no scheduled run were in progress — two runs can
overlap. -/
theorem run_flag_manual_only :
    (∀ (sys : Sys) (cid : Option Nat), sys.status.is_running = true →
      trigger_scrape sys cid = .error "Scrape already in progress".toList) ∧
    (∀ (search : Company → Except (List Char) (List PyJson))
       (scoreFn : PyJson → Except (List Char) PyJson) (now : Nat)
       (cs : List Company) (sys : Sys) (k : Nat),
      ((cs.take k).foldl (process_company search scoreFn now)
        (startRun sys)).status.is_running = true) ∧
    (∀ (search : Company → Except (List Char) (List PyJson))
       (scoreFn : PyJson → Except (List Char) PyJson) (now : Nat)
       (cs : List Company) (sys : Sys) (k : Nat),
      ((cs.take k).foldl (scheduled_step search scoreFn now) sys).status = sys.status) ∧
    (∀ (search : Company → Except (List Char) (List PyJson))
       (scoreFn : PyJson → Except (List Char) PyJson) (now : Nat)
       (cs : List Company) (sys : Sys) (k : Nat) (cid : Option Nat),
      trigger_scrape ((cs.take k).foldl (scheduled_step search scoreFn now) sys) cid =
        trigger_scrape sys cid) := by
  refine ⟨?_, ?_, ?_, ?_⟩
  · intro sys cid h
    unfold trigger_scrape
    rw [h, if_pos rfl]
  · intro search scoreFn now cs sys k
    rw [foldl_process_is_running]
    rfl
  · intro search scoreFn now cs sys k
    exact foldl_scheduled_status _ _ _ _ _
  · intro search scoreFn now cs sys k cid
    unfold trigger_scrape
    rw [foldl_scheduled_status]

theorem run_flag_manual_only_witness :
    (demoSysRunning.status.is_running = true) ∧
    (trigger_scrape demoSysRunning none = .error "Scrape already in progress".toList) ∧
    (([demoCompany1].foldl (process_company demoSearchEmpty demoScoreOk 0)
       (startRun demoSysIdle1)).status.is_running = true) ∧
    (([demoCompany1].foldl (scheduled_step demoSearchEmpty demoScoreOk 0)
       demoSysIdle1).status = demoSysIdle1.status) := by
  refine ⟨rfl, run_flag_manual_only.1 demoSysRunning none rfl, ?_, ?_⟩
  · have h := run_flag_manual_only.2.1 demoSearchEmpty demoScoreOk 0
      [demoCompany1] demoSysIdle1 1
    simpa using h
  · have h := run_flag_manual_only.2.2.1 demoSearchEmpty demoScoreOk 0
      [demoCompany1] demoSysIdle1 1
    simpa using h
